import Mathlib

/-!
Verification development for the esi-sso-quart repository.

Shallow embedding of the core components described in spec.md:
the resilient ESI client (src/app/esi.py, src/app/constants.py),
the diff-based change-history stores, the extraction lifecycle and
the corporation polling scheduler (src/tasks/app_tasks.py).

HTTP statuses are plain naturals, timestamps are rationals (seconds
since epoch; datetime arithmetic is exact at this granularity), and
upstream network behaviour is an explicit list of events.
-/

namespace EsiSso

/-! ## Constants (src/app/constants.py, AppConstants) -/

/-- AppConstants.ESI_ERROR_SLEEP_TIME (seconds). -/
def ESI_ERROR_SLEEP_TIME : ℚ := 7

/-- AppConstants.ESI_ERROR_RETRY_COUNT. -/
def ESI_ERROR_RETRY_COUNT : Nat := 11

/-- AppConstants.ESI_ERROR_SLEEP_MODIFIERS: a dict {500: 19, 504: 37};
`.get(status, 1)` yields 1 for every other status. -/
def sleepModifier (status : Nat) : ℚ :=
  if status == 500 then 19 else if status == 504 then 37 else 1

/-- AppConstants.CORPORATION_REFRESH_INTERVAL_SECONDS. -/
def CORPORATION_REFRESH_INTERVAL_SECONDS : ℚ := 480

/-! ## AppESI.get (src/app/esi.py lines 59-140)

One upstream interaction per loop iteration: either an HTTP response
with a status and a parsed JSON body, a connection-level error
(aiohttp ClientConnectionError), or any other exception. -/

/-- Result dataclass AppESIResult: status plus optional data. -/
structure AppESIResult (α : Type) where
  status : Nat
  data : Option α
deriving DecidableEq, Repr

/-- One iteration's upstream outcome inside AppESI.get's try block. -/
inductive GetEvent (α : Type) where
  | response (status : Nat) (body : α)
  | connError
  | otherExc
deriving DecidableEq, Repr

/-- Whether the event is an HTTP response (as opposed to an exception). -/
def GetEvent.isResponse {α : Type} : GetEvent α → Bool
  | .response _ _ => true
  | _ => false

/-- The retry loop of AppESI.get. `prev` is the cached body for the URL
(previous_json), `attempts` is attempts_remaining, `st` the current
result_status, `sl` the sleeps performed so far (in order). On 200 the
body is returned (the cache write does not affect the result); on 304
the cached body is returned; 400/403 zero the attempt budget; any other
status decrements it and sleeps ESI_ERROR_SLEEP_TIME * sleepModifier;
a connection error decrements it and sleeps the flat delay; any other
exception breaks out of the loop at once. -/
def appGetLoop {α : Type} (prev : Option α) :
    Nat → Nat → List ℚ → List (GetEvent α) → AppESIResult α × List ℚ
  | 0, st, sl, _ => (⟨st, none⟩, sl)
  | _ + 1, st, sl, [] => (⟨st, none⟩, sl)
  | a + 1, st, sl, e :: rest =>
    match e with
    | .response s body =>
      if s == 200 then (⟨s, some body⟩, sl)
      else if s == 304 then (⟨s, prev⟩, sl)
      else
        let a2 := if s == 400 || s == 403 then 0 else a
        if a2 > 0 then
          appGetLoop prev a2 s (sl ++ [ESI_ERROR_SLEEP_TIME * sleepModifier s]) rest
        else (⟨s, none⟩, sl)
    | .connError =>
      if a > 0 then appGetLoop prev a st (sl ++ [ESI_ERROR_SLEEP_TIME]) rest
      else (⟨st, none⟩, sl)
    | .otherExc => (⟨st, none⟩, sl)

/-- AppESI.get: the loop starts with result_status = 404 (NOT_FOUND),
result_data = None and ESI_ERROR_RETRY_COUNT attempts. Returns the
AppESIResult together with the trace of sleep durations. -/
def appGet {α : Type} (prev : Option α) (events : List (GetEvent α)) :
    AppESIResult α × List ℚ :=
  appGetLoop prev ESI_ERROR_RETRY_COUNT 404 [] events

/-! ## AppESI.pages (src/app/esi.py lines 207-327) -/

/-- One iteration's upstream outcome for the first-page request of
AppESI.pages: a response also carries the X-Pages header value. -/
inductive PagesEvent (α : Type) where
  | response (status : Nat) (xPages : Nat) (body : List α)
  | connError
  | otherExc
deriving DecidableEq, Repr

/-- Intermediate state after the first-page retry loop of pages():
result_status, the collected result_data if any, and maxpageno. -/
structure PagesPhase1 (α : Type) where
  status : Nat
  data : Option (List α)
  maxpageno : Nat
  sleeps : List ℚ
deriving DecidableEq, Repr

/-- First-page retry loop of AppESI.pages (lines 251-309). Mirrors
appGetLoop; on 200 the X-Pages header becomes maxpageno and the body the
initial result_data; on 304 the cached page count and cached body are
used (extending an empty list with a missing cache raises and is caught,
leaving the empty list, which `Option.getD []` reproduces exactly). -/
def pagesLoop {α : Type} (prevJson : Option (List α)) (prevPages : Nat) :
    Nat → Nat → List ℚ → List (PagesEvent α) → PagesPhase1 α
  | 0, st, sl, _ => ⟨st, none, 0, sl⟩
  | _ + 1, st, sl, [] => ⟨st, none, 0, sl⟩
  | a + 1, st, sl, e :: rest =>
    match e with
    | .response s xp body =>
      if s == 200 then ⟨s, some body, xp, sl⟩
      else if s == 304 then ⟨s, some (prevJson.getD []), prevPages, sl⟩
      else
        let a2 := if s == 400 || s == 403 then 0 else a
        if a2 > 0 then
          pagesLoop prevJson prevPages a2 s
            (sl ++ [ESI_ERROR_SLEEP_TIME * sleepModifier s]) rest
        else ⟨s, none, 0, sl⟩
    | .connError =>
      if a > 0 then
        pagesLoop prevJson prevPages a st (sl ++ [ESI_ERROR_SLEEP_TIME]) rest
      else ⟨st, none, 0, sl⟩
    | .otherExc => ⟨st, none, 0, sl⟩

/-- Whether a per-page result counts as success in the fan-out loop
(status in [OK, NOT_MODIFIED], line 318). -/
def pageOk {α : Type} (r : AppESIResult (List α)) : Bool :=
  r.status == 200 || r.status == 304

/-- The fan-out combining loop of pages() (lines 316-324): walk the
gathered per-page results in page order; a successful page's data is
appended (a missing or empty body extends nothing); the first failing
page overwrites the status, drops all data and breaks. -/
def combinePages {α : Type} (st0 : Nat) (acc : List α) :
    List (AppESIResult (List α)) → AppESIResult (List α)
  | [] => ⟨st0, some acc⟩
  | r :: rest =>
    if pageOk r then combinePages st0 (acc ++ r.data.getD []) rest
    else ⟨r.status, none⟩

/-- AppESI.pages: run the first-page loop; if it produced data, fetch
pages 2..maxpageno (Python range(2, 1 + maxpageno)) through get — the
outcome of the sub-request for page x is `pageResult x` — and combine
them in page order. -/
def appPages {α : Type} (prevJson : Option (List α)) (prevPages : Nat)
    (events : List (PagesEvent α)) (pageResult : Nat → AppESIResult (List α)) :
    AppESIResult (List α) :=
  let p1 := pagesLoop prevJson prevPages ESI_ERROR_RETRY_COUNT 404 [] events
  match p1.data with
  | none => ⟨p1.status, none⟩
  | some d => combinePages p1.status d ((List.range' 2 (p1.maxpageno - 1)).map pageResult)

/-! ## Change-history stores (src/tasks/app_tasks.py, AppCommonState /
AppStructureState / AppObserverState)

Python entity dicts ("edicts") are association lists from column names to
values; a value is an int, a string, a bool, a datetime (rational seconds)
or None. -/

/-- A field value as it appears in an entity dict or a history row. -/
inductive EVal where
  | vInt (n : Int)
  | vStr (s : String)
  | vBool (b : Bool)
  | vTime (t : ℚ)
  | vNone
deriving DecidableEq, Repr

/-- An entity dict: association list, first binding of a key wins. -/
abbrev EDict : Type := List (String × EVal)

/-- Python's `d.get(k)`: the bound value, or None when the key is absent. -/
def edictGet (d : EDict) (k : String) : EVal :=
  match d.find? (fun p => p.1 == k) with
  | some p => p.2
  | none => EVal.vNone

/-- Python's `d | {k: v}`: update k in place if present, else append it. -/
def dictInsert (d : EDict) (k : String) (v : EVal) : EDict :=
  if d.any (fun p => p.1 == k) then
    d.map (fun p => if p.1 == k then (k, v) else p)
  else d ++ [(k, v)]

/-- Length of an entity dict (Python len). -/
def edictLen (d : EDict) : Nat := List.length d

/-- The inner loop of AppCommonState.changes (lines 56-62): count the
fields of the prior edict, skipping the skip-keys, whose value differs
from the new edict's value for that key. -/
def countChanges (skip : List String) (priorE nowE : EDict) : Nat :=
  (priorE.filter (fun p =>
    !(skip.contains p.1) && decide (p.2 ≠ edictGet nowE p.1))).length

/-- AppCommonState.changes (lines 50-65). Returns the edict to persist,
or the empty dict for "no change". With nowExists false a tombstone
(prior fields with exists=false) is produced iff the prior row existed;
with nowExists true and a non-empty new edict, the new fields (with
exists=true) are produced iff some non-skipped prior field differs. -/
def changesFn (skip : List String) (priorExists nowExists : Bool)
    (priorE nowE : EDict) : EDict :=
  if nowExists = false then
    if priorExists then dictInsert priorE "exists" (.vBool nowExists) else []
  else if edictLen nowE > 0 then
    if countChanges skip priorE nowE > 0 then
      dictInsert nowE "exists" (.vBool nowExists)
    else []
  else []

/-- A history-table row: the exists column plus the non-synthetic field
columns (the synthetic id and the timestamp are never compared and are
left out of the model). Latest row first in a history list. -/
structure HistRow where
  rowExists : Bool
  fields : EDict
deriving DecidableEq, Repr

/-- The SQLAlchemy model constructor Row(**edict) accepts only column
names as keywords ("exists" is itself a column); anything else raises,
the store's broad except catches it, and set() returns False with no row
written. -/
def validKeys (cols : List String) (d : EDict) : Bool :=
  d.all (fun p => cols.contains p.1 || p.1 == "exists")

/-- Construct the persisted row from the final edict: every column takes
the edict's value, absent columns are None (Python object level). -/
def mkRow (cols : List String) (finalE : EDict) (nowExists : Bool) : HistRow :=
  { rowExists := nowExists, fields := cols.map (fun k => (k, edictGet finalE k)) }

/-- The append step of set() (lines 121-131): merge `{'exists':
now_exists}` into the final edict and construct the row; a constructor
keyword that is not a column raises, is caught, and yields False with
nothing written. -/
def appendRow (cols : List String) (hist : List HistRow) (finalE0 : EDict)
    (nowExists : Bool) : List HistRow × Bool :=
  let finalE := dictInsert finalE0 "exists" (.vBool nowExists)
  if validKeys cols finalE then (mkRow cols finalE nowExists :: hist, true)
  else (hist, false)

/-- The shared set() algorithm (AppStructureState.set lines 109-137,
AppExtractionState.set lines 179-207, AppObserverState.set lines
293-321): look up the latest row (the head of the history); if present,
run the diff and persist the change edict when non-empty; append a row
when the diff demanded it or force_set is given; return (new history,
whether a row was written). -/
def setHist (skip cols : List String) (hist : List HistRow)
    (nowE : EDict) (nowExists : Bool) (forceSet : Bool) : List HistRow × Bool :=
  match hist with
  | [] =>
    if (decide (edictLen nowE > 0) && nowExists) || forceSet then
      appendRow cols hist nowE nowExists
    else (hist, false)
  | prior :: _ =>
    let changeE := changesFn skip prior.rowExists nowExists prior.fields nowE
    if decide (edictLen changeE > 0) || forceSet then
      appendRow cols hist (if edictLen changeE > 0 then changeE else nowE) nowExists
    else (hist, false)

/-- StructureHistory's comparable columns (db.py lines 168-184, minus
id, exists and timestamp, exactly as AppStructureState.set builds
prior_edict). -/
def structureColumns : List String :=
  ["character_id", "corporation_id", "system_id", "type_id", "structure_id",
   "name", "state", "state_timer_start", "state_timer_end", "fuel_expires",
   "unanchors_at", "has_moon_drill"]

/-- ObserverHistory's comparable columns (db.py lines 273-281, minus id,
exists and timestamp). -/
def observerColumns : List String :=
  ["corporation_id", "observer_id", "observer_type", "last_updated"]

/-- AppStructureState.set: structure skip-keys are ['character_id']
(AppCommonState.changes_skipkeys), force_set defaults to False. -/
def structureSet (hist : List HistRow) (nowE : EDict) (nowExists : Bool) :
    List HistRow × Bool :=
  setHist ["character_id"] structureColumns hist nowE nowExists false

/-- AppObserverState.set: observer skip-keys are [] (the override at
lines 241-243). -/
def observerSet (hist : List HistRow) (nowE : EDict) (nowExists : Bool)
    (forceSet : Bool) : List HistRow × Bool :=
  setHist [] observerColumns hist nowE nowExists forceSet

/-- The per-snapshot write of the observers fetch (run_observers line
863): observer_state.set(observer_id, corporation_id, edict, True,
force_set=True). -/
def runObserversStep (hist : List HistRow) (nowE : EDict) : List HistRow × Bool :=
  observerSet hist nowE true true

/-- The tombstone write of the observers fetch for a disappeared
observer (run_observers line 872): set(observer_id, corporation_id,
dict(), False) with the default force_set=False. -/
def runObserversRemove (hist : List HistRow) : List HistRow × Bool :=
  observerSet hist [] false false

/-! ## AppStructureState.structure_ids (lines 70-86) -/

/-- A StructureHistory row restricted to the columns the ids query
touches, plus the synthetic increasing id. -/
structure SHRow where
  hid : Nat
  structure_id : Nat
  corporation_id : Nat
  rowExists : Bool
deriving DecidableEq, Repr

/-- AppStructureState.structure_ids: SELECT DISTINCT structure_id WHERE
corporation_id = corp AND exists = true AND structure_id NOT IN (SELECT
DISTINCT structure_id WHERE exists = false) — note the subquery ranges
over the whole table, with no corporation and no recency restriction. -/
def structureIds (table : List SHRow) (corp : Nat) : List Nat :=
  ((table.filter (fun r =>
      r.corporation_id == corp && r.rowExists == true
      && !(table.any (fun r2 => r2.rowExists == false
            && r2.structure_id == r.structure_id)))).map
    (fun r => r.structure_id)).dedup

/-- Modelled from the spec: the claim's reading of ids() — the row with
the highest synthetic id for the entity (its latest history row) has
exists = true. Used only to compare the claim's words with the query the
source actually issues. -/
def latestRowExists (table : List SHRow) (sid : Nat) : Bool :=
  ((table.filter (fun r => r.structure_id == sid)).foldl
    (fun acc r =>
      match acc with
      | none => some r
      | some b => if b.hid < r.hid then some r else some b)
    none).elim false (fun r => r.rowExists)

/-! ## Extraction lifecycle (AppStructureTask.roll_extractions, lines
577-663)

Timestamps are rational seconds since epoch; structure ids are
naturals; the float belt_lifetime_modifier is a rational (exact for the
values the claims exercise). -/

/-- A ScheduledExtraction row (db.py lines 207-216; structure_id is the
primary key, so at most one live row per structure). -/
structure SchedRow where
  character_id : Nat
  corporation_id : Nat
  structure_id : Nat
  moon_id : Nat
  extraction_start_time : ℚ
  chunk_arrival_time : ℚ
  natural_decay_time : ℚ
deriving DecidableEq, Repr

/-- A CompletedExtraction row (db.py lines 225-235). -/
structure ComplRow where
  character_id : Nat
  corporation_id : Nat
  structure_id : Nat
  moon_id : Nat
  extraction_start_time : ℚ
  chunk_arrival_time : ℚ
  natural_decay_time : ℚ
  belt_decay_time : ℚ
deriving DecidableEq, Repr

/-- The extraction-related persistent state roll_extractions reads and
writes: scheduled rows, completed rows, and the StructureModifiers table
(structure_id, belt_lifetime_modifier). -/
structure ExtractionDB where
  scheduled : List SchedRow
  completed : List ComplRow
  modifiers : List (Nat × ℚ)
deriving DecidableEq, Repr

/-- now.replace(microsecond=0): drop the sub-second part of now. -/
def truncSec (t : ℚ) : ℚ := (Rat.floor t : ℚ)

/-- datetime.timedelta(days=2) in seconds. -/
def beltLifetimeBase : ℚ := 172800

/-- Look up the StructureModifiers row for the structure (lines
623-631): the estimate is multiplied by belt_lifetime_modifier when a
row exists, i.e. the modifier defaults to 1. -/
def lookupModifier (mods : List (Nat × ℚ)) (sid : Nat) : ℚ :=
  match mods.find? (fun p => p.1 == sid) with
  | some p => p.2
  | none => 1

/-- The CompletedExtraction inserted for a migrated scheduled row (lines
622-644): belt_lifetime_estimate = 2 days * modifier; actual_decay_time
= min(now.replace(microsecond=0), natural_decay_time); belt_decay_time =
actual_decay_time + belt_lifetime_estimate; the remaining fields are
copied from the scheduled row. -/
def newCompleted (now : ℚ) (mods : List (Nat × ℚ)) (s : SchedRow) : ComplRow :=
  { character_id := s.character_id
    corporation_id := s.corporation_id
    structure_id := s.structure_id
    moon_id := s.moon_id
    extraction_start_time := s.extraction_start_time
    chunk_arrival_time := s.chunk_arrival_time
    natural_decay_time := s.natural_decay_time
    belt_decay_time :=
      min (truncSec now) s.natural_decay_time
        + beltLifetimeBase * lookupModifier mods s.structure_id }

/-- The migration loop over the surviving scheduled rows (lines
606-657), producing the list of inserted CompletedExtraction rows: a
survivor whose existing completed row has the same chunk_arrival_time is
skipped (already migrated); otherwise a new completed row is inserted.
`selCompl` is the completed dict captured before the loop. -/
def rollInserted (now : ℚ) (mods : List (Nat × ℚ)) (selCompl : List ComplRow) :
    List SchedRow → List ComplRow
  | [] => []
  | s :: rest =>
    match selCompl.find? (fun c => c.structure_id == s.structure_id) with
    | some c =>
      if c.chunk_arrival_time = s.chunk_arrival_time then
        rollInserted now mods selCompl rest
      else newCompleted now mods s :: rollInserted now mods selCompl rest
    | none => newCompleted now mods s :: rollInserted now mods selCompl rest

/-- The stale completed rows deleted by the migration loop (line 620):
for each survivor whose completed row has a different
chunk_arrival_time, that completed row. -/
def rollDeletedCompleted (selCompl : List ComplRow) :
    List SchedRow → List ComplRow
  | [] => []
  | s :: rest =>
    match selCompl.find? (fun c => c.structure_id == s.structure_id) with
    | some c =>
      if c.chunk_arrival_time = s.chunk_arrival_time then
        rollDeletedCompleted selCompl rest
      else c :: rollDeletedCompleted selCompl rest
    | none => rollDeletedCompleted selCompl rest

/-- AppStructureTask.roll_extractions: select the scheduled rows in the
changed set; delete those whose chunk has not yet arrived (now <
chunk_arrival_time: cancelled, lines 592-596); every remaining selected
scheduled row is deleted and migrated by the loop. Returns the updated
state together with the list of inserted CompletedExtraction rows (the
rows the MoonExtractionCompletedEvents are also built from). -/
def rollExtractions (now : ℚ) (changed : List Nat) (db : ExtractionDB) :
    ExtractionDB × List ComplRow :=
  let selSched := db.scheduled.filter (fun s => changed.contains s.structure_id)
  let survivors := selSched.filter (fun s => !(decide (now < s.chunk_arrival_time)))
  let selCompl := db.completed.filter (fun c => changed.contains c.structure_id)
  let inserted := rollInserted now db.modifiers selCompl survivors
  let deleted := rollDeletedCompleted selCompl survivors
  ({ scheduled := db.scheduled.filter (fun s => !(changed.contains s.structure_id))
     completed := db.completed.filter (fun c => !(deleted.contains c)) ++ inserted
     modifiers := db.modifiers },
   inserted)

/-! ## Corporation polling scheduler (AppStructurePollingTask) -/

/-- A PeriodicCredentials row restricted to the columns
get_available_periodic_credentials touches (db.py lines 338-352). -/
structure Cred where
  character_id : Nat
  corporation_id : Nat
  is_enabled : Bool
  is_director_role : Bool
  is_accountant_role : Bool
  is_station_manager_role : Bool
  access_token_expiry : ℚ
deriving DecidableEq, Repr

/-- The WHERE clause of get_available_periodic_credentials (lines
982-988): is_enabled AND is_station_manager_role AND
access_token_expiry > now. -/
def credEligible (now : ℚ) (c : Cred) : Bool :=
  c.is_enabled && c.is_station_manager_role && decide (now < c.access_token_expiry)

/-- The role part of the ORDER BY (lines 989-994: director desc,
accountant desc, station-manager desc) encoded as one natural:
descending boolean sort equals ascending order of this rank, with the
director bit weighing heaviest. -/
def roleRank (c : Cred) : Nat :=
  (if c.is_director_role then 0 else 4)
    + (if c.is_accountant_role then 0 else 2)
    + (if c.is_station_manager_role then 0 else 1)

/-- The full ORDER BY comparison between two credential rows: lower role
rank first; equal ranks are ordered by earlier access_token_expiry. -/
def credLE (a b : Cred) : Prop :=
  roleRank a < roleRank b
    ∨ (roleRank a = roleRank b ∧ a.access_token_expiry ≤ b.access_token_expiry)

instance : DecidableRel credLE := fun a b => by
  unfold credLE; infer_instance

instance : IsTotal Cred credLE := ⟨by
  intro a b
  rcases Nat.lt_trichotomy (roleRank a) (roleRank b) with h | h | h
  · exact Or.inl (Or.inl h)
  · rcases le_total a.access_token_expiry b.access_token_expiry with h2 | h2
    · exact Or.inl (Or.inr ⟨h, h2⟩)
    · exact Or.inr (Or.inr ⟨h.symm, h2⟩)
  · exact Or.inr (Or.inl h)⟩

instance : IsTrans Cred credLE := ⟨by
  intro a b c hab hbc
  rcases hab with h1 | ⟨h1, h1e⟩
  · rcases hbc with h2 | ⟨h2, _⟩
    · exact Or.inl (h1.trans h2)
    · exact Or.inl (by omega)
  · rcases hbc with h2 | ⟨h2, h2e⟩
    · exact Or.inl (by omega)
    · exact Or.inr ⟨h1.trans h2, h1e.trans h2e⟩⟩

/-- Association-list lookup for the per-corporation dicts. -/
def lookupCorp {β : Type} (d : List (Nat × β)) (corp : Nat) : Option β :=
  (d.find? (fun p => p.1 == corp)).map (fun p => p.2)

/-- The dict-building loop of get_available_periodic_credentials (lines
997-1001): walk the ordered rows, keeping the first row seen for each
corporation. -/
def credFold (acc : List (Nat × Cred)) : List Cred → List (Nat × Cred)
  | [] => acc
  | c :: rest =>
    if (lookupCorp acc c.corporation_id).isSome then credFold acc rest
    else credFold (acc ++ [(c.corporation_id, c)]) rest

/-- AppStructurePollingTask.get_available_periodic_credentials: filter
by the WHERE clause, sort by the ORDER BY, keep the first row per
corporation. -/
def availableCreds (now : ℚ) (table : List Cred) : List (Nat × Cred) :=
  credFold [] (List.insertionSort credLE (table.filter (credEligible now)))

/-- Ascending-timestamp order on the refresh-cursor entries. -/
def cursorLE (a b : Nat × ℚ) : Prop := a.2 ≤ b.2

instance : DecidableRel cursorLE := fun a b => by
  unfold cursorLE; infer_instance

instance : IsTotal (Nat × ℚ) cursorLE := ⟨fun a b => le_total a.2 b.2⟩

instance : IsTrans (Nat × ℚ) cursorLE := ⟨fun _ _ _ hab hbc => le_trans hab hbc⟩

/-- The selection step of run_once (line 1073): sort the corporations by
their refresh timestamp ascending (Python sorted, a stable sort) and
take the first, together with its timestamp. -/
def oldestCorp (hist : List (Nat × ℚ)) : Option (Nat × ℚ) :=
  (List.insertionSort cursorLE hist).head?

/-- What one scheduler iteration decides to do. -/
inductive SchedAction where
  | sleep (duration : ℚ)
  | refresh (corps : List Nat)
deriving DecidableEq, Repr

/-- AppStructurePollingTask.run_once (lines 1061-1105) after the
credential query, abstracted over the refresh-cursor dict `hist` (one
entry per eligible corporation, as get_refresh_times returns): with no
eligible corporation sleep a full interval; if the oldest cursor is not
yet due sleep exactly the remaining delta and return to selection;
otherwise refresh every due corporation. -/
def runOnce (now interval : ℚ) (hist : List (Nat × ℚ)) : SchedAction :=
  match oldestCorp hist with
  | none => .sleep interval
  | some (_, ts) =>
    if now < ts + interval then .sleep (ts + interval - now)
    else .refresh ((hist.filter (fun p => !(decide (now < p.2 + interval)))).map
      (fun p => p.1))

/-! ## Concrete instances used by witnesses and counterexamples -/

/-- Per-page outcomes with page 3 of 5 failing (spec's pagination test). -/
def c3PageResult : Nat → AppESIResult (List Int) :=
  fun x => if x == 3 then ⟨500, none⟩ else ⟨200, some [(x : Int)]⟩

/-- A scheduled extraction with chunk_arrival_time = 0 (the claim's T)
and natural_decay_time = T + 3h. -/
def c1Sched : SchedRow :=
  { character_id := 1, corporation_id := 2, structure_id := 11, moon_id := 3,
    extraction_start_time := 0, chunk_arrival_time := 0, natural_decay_time := 10800 }

/-- Extraction state holding c1Sched and a belt_lifetime_modifier of 1.5
for its structure. -/
def c1DB : ExtractionDB :=
  { scheduled := [c1Sched], completed := [], modifiers := [(11, 3/2)] }

/-- The completed row roll_extractions inserts for c1Sched at
now = T + 1h. -/
def c1Row : ComplRow := newCompleted 3600 c1DB.modifiers c1Sched

/-- A structure snapshot edict. -/
def c2S : EDict := [("structure_id", EVal.vInt 1), ("name", EVal.vStr "A")]

/-- A history whose latest row already equals c2S: the result of feeding
c2S to an empty history once. -/
def c2H0 : List HistRow := (structureSet [] c2S true).1

/-- A structure history with an old exists=false tombstone followed by a
live exists=true row for structure 10 of corporation 7. -/
def c4Table : List SHRow :=
  [{ hid := 1, structure_id := 10, corporation_id := 7, rowExists := false },
   { hid := 2, structure_id := 10, corporation_id := 7, rowExists := true }]

/-- An enabled, unexpired director credential without the
station-manager role. -/
def c8NoSM : Cred :=
  { character_id := 1, corporation_id := 7, is_enabled := true,
    is_director_role := true, is_accountant_role := false,
    is_station_manager_role := false, access_token_expiry := 100 }

/-- A station-manager credential without the director role. -/
def c8Plain : Cred :=
  { character_id := 1, corporation_id := 7, is_enabled := true,
    is_director_role := false, is_accountant_role := false,
    is_station_manager_role := true, access_token_expiry := 100 }

/-- A director credential that also has the station-manager role, with a
later token expiry than c8Plain. -/
def c8Director : Cred :=
  { character_id := 2, corporation_id := 7, is_enabled := true,
    is_director_role := true, is_accountant_role := false,
    is_station_manager_role := true, access_token_expiry := 200 }

/-- A two-credential table for one corporation. -/
def c8Table : List Cred := [c8Plain, c8Director]

/-- An observer snapshot edict. -/
def c9S : EDict := [("observer_id", EVal.vInt 5), ("observer_type", EVal.vStr "structure")]

/-- Observer history after feeding c9S once to an empty history. -/
def c9H1 : List HistRow := (runObserversStep [] c9S).1

/-! ## Theorems -/

/-- C5 counterexample: three consecutive 500 responses do cause three
sleeps before the fourth attempt, but each sleep lasts 133 seconds
(base delay 7s times the status-500 modifier 19), not double the base
delay as the claim states. -/
theorem c5_counterexample :
    (appGet (α := Int) none
      [.response 500 0, .response 500 0, .response 500 0, .response 200 42]).2
      = [ESI_ERROR_SLEEP_TIME * sleepModifier 500,
         ESI_ERROR_SLEEP_TIME * sleepModifier 500,
         ESI_ERROR_SLEEP_TIME * sleepModifier 500] ∧
    ESI_ERROR_SLEEP_TIME * sleepModifier 500 = 133 ∧
    ¬ (ESI_ERROR_SLEEP_TIME * sleepModifier 500 = 2 * ESI_ERROR_SLEEP_TIME) := by
  refine ⟨rfl, ?_, ?_⟩ <;> norm_num [ESI_ERROR_SLEEP_TIME, sleepModifier]

/-- C5 (amended): with a fresh budget of ESI_ERROR_RETRY_COUNT = 11
attempts, three consecutive 500 responses cause exactly three sleeps of
ESI_ERROR_SLEEP_TIME * sleepModifier 500 = 7 * 19 seconds each, after
which a fourth request attempt is made (here it succeeds and its body
is returned); and exhausting every attempt on 500 responses returns the
last seen status 500 with no data after ten sleeps. -/
theorem c5_retry_backoff {α : Type} :
    (∀ (prev : Option α) (b body : α),
      appGet prev
        [.response 500 b, .response 500 b, .response 500 b, .response 200 body]
        = (⟨200, some body⟩,
           [ESI_ERROR_SLEEP_TIME * sleepModifier 500,
            ESI_ERROR_SLEEP_TIME * sleepModifier 500,
            ESI_ERROR_SLEEP_TIME * sleepModifier 500])) ∧
    (∀ (prev : Option α) (b : α),
      appGet prev (List.replicate ESI_ERROR_RETRY_COUNT (.response 500 b))
        = (⟨500, none⟩,
           List.replicate 10 (ESI_ERROR_SLEEP_TIME * sleepModifier 500))) :=
  ⟨fun _ _ _ => rfl, fun _ _ => rfl⟩

/-- Helper for C10: as long as no upstream event is an actual HTTP
response, the loop's result keeps the running status and carries no
data, whatever the attempt budget and sleep trace. -/
theorem appGetLoop_no_response {α : Type} (prev : Option α) :
    ∀ (events : List (GetEvent α)) (a st : Nat) (sl : List ℚ),
      (∀ e ∈ events, e.isResponse = false) →
      (appGetLoop prev a st sl events).1 = ⟨st, none⟩ := by
  intro events
  induction events with
  | nil => intro a st sl _; cases a <;> rfl
  | cons e rest ih =>
    intro a st sl h
    cases a with
    | zero => rfl
    | succ n =>
      cases e with
      | response s body =>
        have := h (.response s body) (List.mem_cons_self _ _)
        simp [GetEvent.isResponse] at this
      | connError =>
        have hrest : ∀ e2 ∈ rest, e2.isResponse = false :=
          fun e2 he2 => h e2 (List.mem_cons_of_mem _ he2)
        by_cases hn : n > 0
        · simpa [appGetLoop, hn] using ih n st (sl ++ [ESI_ERROR_SLEEP_TIME]) hrest
        · simp [appGetLoop, hn]
      | otherExc => rfl

/-- C10: the embedded AppESI.get is a total function into AppESIResult
(every exception inside the loop body is caught): a connection-level
error consumes exactly one retry attempt and sleeps the flat delay; any
other exception returns at once with the status seen so far and no
data; and a run in which no HTTP response is ever received returns the
initial default status 404 with data = None. -/
theorem c10_get_never_raises {α : Type} :
    (∀ (prev : Option α) (events : List (GetEvent α)),
      (∀ e ∈ events, e.isResponse = false) →
      (appGet prev events).1 = ⟨404, none⟩) ∧
    (∀ (prev : Option α) (a st : Nat) (sl : List ℚ) (rest : List (GetEvent α)),
      appGetLoop prev (a + 2) st sl (.connError :: rest)
        = appGetLoop prev (a + 1) st (sl ++ [ESI_ERROR_SLEEP_TIME]) rest) ∧
    (∀ (prev : Option α) (a st : Nat) (sl : List ℚ) (rest : List (GetEvent α)),
      appGetLoop prev (a + 1) st sl (.otherExc :: rest) = (⟨st, none⟩, sl)) := by
  refine ⟨fun prev events h => appGetLoop_no_response prev events _ _ _ h, ?_, ?_⟩
  · intro prev a st sl rest
    simp [appGetLoop]
  · intro prev a st sl rest
    rfl

/-- C10 witness: a connection error followed by an unexpected exception
yields the default 404 result with no data. -/
theorem c10_witness :
    (appGet (α := Int) (some 7) [.connError, .otherExc]).1 = ⟨404, none⟩ :=
  (c10_get_never_raises (α := Int)).1 (some 7) [.connError, .otherExc] (by decide)

/-- Helper for C3: the combining loop returns the first failing page's
status with no data whenever some gathered result fails. -/
theorem combinePages_find_fail {α : Type} (st0 : Nat)
    (rBad : AppESIResult (List α)) :
    ∀ (rs : List (AppESIResult (List α))) (acc : List α),
      rs.find? (fun r => !pageOk r) = some rBad →
      combinePages st0 acc rs = ⟨rBad.status, none⟩ := by
  intro rs
  induction rs with
  | nil => intro acc h; simp at h
  | cons r rest ih =>
    intro acc h
    by_cases hok : pageOk r
    · rw [List.find?_cons_of_neg _ (by simp [hok])] at h
      simpa [combinePages, hok] using ih _ h
    · rw [List.find?_cons_of_pos _ (by simp [hok])] at h
      cases h
      simp [combinePages, hok]

/-- C3: whether page 1 was obtained fresh (200, page count from the
X-Pages header) or from cache (304, cached page count), if any sub-fetch
of pages 2..N fails with a status other than 200/304, pages() returns
that first failing status with data = None, never a partial
concatenation. -/
theorem c3_pages_all_or_nothing {α : Type} (prevJson : Option (List α))
    (prevPages N : Nat) (body : List α)
    (pr : Nat → AppESIResult (List α)) (rBad : AppESIResult (List α)) :
    (((List.range' 2 (N - 1)).map pr).find? (fun r => !pageOk r) = some rBad →
      appPages prevJson prevPages [.response 200 N body] pr = ⟨rBad.status, none⟩) ∧
    (((List.range' 2 (prevPages - 1)).map pr).find? (fun r => !pageOk r) = some rBad →
      appPages prevJson prevPages [.response 304 N body] pr = ⟨rBad.status, none⟩) := by
  constructor
  · intro h
    have h0 : appPages prevJson prevPages [.response 200 N body] pr
        = combinePages 200 body ((List.range' 2 (N - 1)).map pr) := rfl
    rw [h0]
    exact combinePages_find_fail 200 rBad _ body h
  · intro h
    have h0 : appPages prevJson prevPages [.response 304 N body] pr
        = combinePages 304 (prevJson.getD [])
            ((List.range' 2 (prevPages - 1)).map pr) := rfl
    rw [h0]
    exact combinePages_find_fail 304 rBad _ _ h

/-- C3 witness: a five-page fetch whose page 3 fails with 500 returns
status 500 and no data. -/
theorem c3_witness :
    appPages (α := Int) none 0 [.response 200 5 [1]] c3PageResult = ⟨500, none⟩ :=
  (c3_pages_all_or_nothing none 0 5 [1] c3PageResult ⟨500, none⟩).1 (by decide)

/-- C6: with two eligible corporations whose refresh cursors satisfy
t0 < t1, the stable ascending sort puts the t0 corporation first and it
is the one picked; and when that oldest cursor is not yet due the
iteration performs a single sleep of exactly (t0 + interval) - now
before returning to selection. -/
theorem c6_scheduler_oldest_first (now interval t0 t1 : ℚ) (c0 c1 : Nat)
    (h : t0 < t1) :
    oldestCorp [(c0, t0), (c1, t1)] = some (c0, t0) ∧
    (now < t0 + interval →
      runOnce now interval [(c0, t0), (c1, t1)]
        = .sleep (t0 + interval - now)) := by
  have hle : cursorLE (c0, t0) (c1, t1) := le_of_lt h
  have hsort : List.insertionSort cursorLE [(c0, t0), (c1, t1)]
      = [(c0, t0), (c1, t1)] := by
    simp [List.insertionSort, List.orderedInsert, hle]
  have hold : oldestCorp [(c0, t0), (c1, t1)] = some (c0, t0) := by
    show (List.insertionSort cursorLE [(c0, t0), (c1, t1)]).head? = some (c0, t0)
    rw [hsort]
    rfl
  refine ⟨hold, fun hn => ?_⟩
  unfold runOnce
  rw [hold]
  simp [hn]

/-- C6 witness: cursors 900 < 950 with interval 480 at now = 1000:
corporation 5 is picked and the iteration sleeps 380 seconds. -/
theorem c6_witness :
    oldestCorp [(5, 900), (6, 950)] = some (5, 900) ∧
    runOnce 1000 480 [(5, 900), (6, 950)] = .sleep 380 := by
  obtain ⟨h1, h2⟩ := c6_scheduler_oldest_first 1000 480 900 950 5 6 (by norm_num)
  refine ⟨h1, ?_⟩
  have h3 := h2 (by norm_num)
  have h4 : (900 : ℚ) + 480 - 1000 = 380 := by norm_num
  rw [h4] at h3
  exact h3

/-- Helper for C7: when every gathered page result succeeds, the
combining loop keeps the first-page status and concatenates every
page's data onto the accumulator in page order. -/
theorem combinePages_all_ok {α : Type} (st0 : Nat) :
    ∀ (rs : List (AppESIResult (List α))) (acc : List α),
      (∀ r ∈ rs, pageOk r = true) →
      combinePages st0 acc rs
        = ⟨st0, some (acc ++ (rs.map (fun r => r.data.getD [])).flatten)⟩ := by
  intro rs
  induction rs with
  | nil => intro acc _; simp [combinePages]
  | cons r rest ih =>
    intro acc h
    have hr : pageOk r = true := h r (List.mem_cons_self _ _)
    simp only [combinePages, hr, if_true, List.map_cons, List.flatten_cons]
    rw [ih _ (fun x hx => h x (List.mem_cons_of_mem _ hx))]
    simp [List.append_assoc]

/-- C7 (amended): when the first-page request comes back 304 the loop
reuses the cached first-page body and the cached page count N, but then
still issues sub-requests for pages 2..N and appends whatever they
return: the result equals the cached body alone exactly when the cached
page count is at most 1; when every sub-request succeeds the result is
the cached first page followed by the freshly fetched pages in order
(and by C3's property a failing page still discards everything). -/
theorem c7_pages_304_refetch {α : Type} (prevJson : Option (List α))
    (prevPages xp : Nat) (body : List α) (pr : Nat → AppESIResult (List α)) :
    (prevPages ≤ 1 →
      appPages prevJson prevPages [.response 304 xp body] pr
        = ⟨304, some (prevJson.getD [])⟩) ∧
    ((∀ r ∈ (List.range' 2 (prevPages - 1)).map pr, pageOk r = true) →
      appPages prevJson prevPages [.response 304 xp body] pr
        = ⟨304, some ((prevJson.getD [])
            ++ (((List.range' 2 (prevPages - 1)).map pr).map
                  (fun r => r.data.getD [])).flatten)⟩) := by
  have h0 : appPages prevJson prevPages [.response 304 xp body] pr
      = combinePages 304 (prevJson.getD [])
          ((List.range' 2 (prevPages - 1)).map pr) := rfl
  constructor
  · intro h
    rw [h0, Nat.sub_eq_zero_of_le h]
    simp [combinePages]
  · intro h
    rw [h0, combinePages_all_ok 304 _ _ h]

/-- C7 witness: with one cached page the 304 path returns the cached
body unchanged; with three cached pages it appends the two freshly
fetched pages. -/
theorem c7_witness :
    appPages (α := Int) (some [0]) 1 [.response 304 0 []]
      (fun _ => ⟨200, some [9]⟩) = ⟨304, some [0]⟩ ∧
    appPages (α := Int) (some [0]) 3 [.response 304 0 []]
      (fun _ => ⟨200, some [9]⟩) = ⟨304, some [0, 9, 9]⟩ := by
  constructor
  · exact (c7_pages_304_refetch (some [0]) 1 0 [] _).1 (by norm_num)
  · have h := (c7_pages_304_refetch (α := Int) (some [0]) 3 0 []
      (fun _ => ⟨200, some [9]⟩)).2 (by decide)
    simpa using h

/-- C7 counterexample: with two cached pages and upstream page 2 now
returning fresh content, the 304 path returns the cached first page
concatenated with the fresh page 2 — not the cached data unchanged. -/
theorem c7_counterexample :
    (appPages (α := Int) (some [0]) 2 [.response 304 0 []]
      (fun _ => ⟨200, some [9]⟩)).data = some [0, 9] ∧
    (some [0, 9] : Option (List Int)) ≠ some [0] :=
  ⟨rfl, by decide⟩

/-- Helper for C1: every row produced by the migration loop is the
newCompleted image of one of the surviving scheduled rows. -/
theorem rollInserted_mem {now : ℚ} {mods : List (Nat × ℚ)}
    {selCompl : List ComplRow} :
    ∀ (l : List SchedRow) (c : ComplRow), c ∈ rollInserted now mods selCompl l →
      ∃ s ∈ l, c = newCompleted now mods s := by
  intro l
  induction l with
  | nil => intro c hc; simp [rollInserted] at hc
  | cons s rest ih =>
    intro c hc
    unfold rollInserted at hc
    cases hfind : selCompl.find? (fun x => x.structure_id == s.structure_id) with
    | none =>
      rw [hfind] at hc
      rcases List.mem_cons.mp hc with h1 | h2
      · exact ⟨s, List.mem_cons_self _ _, h1⟩
      · obtain ⟨s2, hs2, he⟩ := ih c h2
        exact ⟨s2, List.mem_cons_of_mem _ hs2, he⟩
    | some cc =>
      rw [hfind] at hc
      dsimp only at hc
      by_cases heq : cc.chunk_arrival_time = s.chunk_arrival_time
      · rw [if_pos heq] at hc
        obtain ⟨s2, hs2, he⟩ := ih c hc
        exact ⟨s2, List.mem_cons_of_mem _ hs2, he⟩
      · rw [if_neg heq] at hc
        rcases List.mem_cons.mp hc with h1 | h2
        · exact ⟨s, List.mem_cons_self _ _, h1⟩
        · obtain ⟨s2, hs2, he⟩ := ih c h2
          exact ⟨s2, List.mem_cons_of_mem _ hs2, he⟩

/-- C1 (amended): every CompletedExtraction that roll_extractions
inserts satisfies belt_decay_time = min(now truncated to whole seconds,
natural_decay_time) + 2 days * belt_lifetime_modifier, the modifier
defaulting to 1.0 when no StructureModifiers row exists — the code
anchors the estimate at the natural decay time, not at
chunk_arrival_time as the claim states. -/
theorem c1_roll_belt_decay (now : ℚ) (changed : List Nat) (db : ExtractionDB) :
    ∀ c ∈ (rollExtractions now changed db).2,
      c.belt_decay_time
        = min (truncSec now) c.natural_decay_time
          + beltLifetimeBase * lookupModifier db.modifiers c.structure_id := by
  intro c hc
  have h0 : (rollExtractions now changed db).2
      = rollInserted now db.modifiers
          (db.completed.filter (fun x => changed.contains x.structure_id))
          ((db.scheduled.filter (fun s => changed.contains s.structure_id)).filter
            (fun s => !(decide (now < s.chunk_arrival_time)))) := rfl
  rw [h0] at hc
  obtain ⟨s, _, he⟩ := rollInserted_mem _ c hc
  subst he
  rfl

/-- C1 witness: at now = T + 1h with chunk arrival T = 0, natural decay
T + 3h and modifier 1.5, the single migrated extraction is inserted and
its belt_decay_time obeys the code's formula. -/
theorem c1_witness :
    c1Row ∈ (rollExtractions 3600 [11] c1DB).2 ∧
    c1Row.belt_decay_time
      = min (truncSec 3600) c1Row.natural_decay_time
        + beltLifetimeBase * lookupModifier c1DB.modifiers c1Row.structure_id := by
  have hm : c1Row ∈ (rollExtractions 3600 [11] c1DB).2 := by
    show c1Row ∈ [c1Row]
    exact List.mem_singleton.mpr rfl
  exact ⟨hm, c1_roll_belt_decay 3600 [11] c1DB c1Row hm⟩

/-- C1 counterexample: in the claim's own example (chunk_arrival_time =
T = 0, now = T + 1h, modifier = 1.5) the inserted record's
belt_decay_time is T + 1h + 72h = 262800, not the claimed
min(now, chunk_arrival_time) + 2 days * 1.5 = T + 72h = 259200. -/
theorem c1_counterexample :
    (rollExtractions 3600 [11] c1DB).2 = [c1Row] ∧
    c1Row.belt_decay_time = 262800 ∧
    ¬ (c1Row.belt_decay_time
        = min 3600 c1Sched.chunk_arrival_time + beltLifetimeBase * (3 / 2)) := by
  have hbelt : c1Row.belt_decay_time = 262800 := by
    show min (truncSec 3600) c1Sched.natural_decay_time
        + beltLifetimeBase * lookupModifier c1DB.modifiers c1Sched.structure_id
        = 262800
    have hfl : truncSec 3600 = 3600 := by decide
    rw [hfl]
    norm_num [c1Sched, c1DB, beltLifetimeBase, lookupModifier, min_def]
  refine ⟨rfl, hbelt, ?_⟩
  rw [hbelt]
  norm_num [c1Sched, beltLifetimeBase, min_def]

/-- C4 (amended): structure_ids(corp) returns exactly the ids that have
some exists=true row for the corporation and no exists=false row
anywhere in the history table — an id with any old tombstone is
excluded even when its latest row has exists=true. -/
theorem c4_structure_ids_characterization (table : List SHRow) (corp sid : Nat) :
    sid ∈ structureIds table corp ↔
      ((∃ r ∈ table, r.corporation_id = corp ∧ r.rowExists = true
          ∧ r.structure_id = sid)
        ∧ ∀ r2 ∈ table, r2.rowExists = false → r2.structure_id ≠ sid) := by
  unfold structureIds
  rw [List.mem_dedup, List.mem_map]
  constructor
  · rintro ⟨r, hr, rfl⟩
    rw [List.mem_filter] at hr
    obtain ⟨hmem, hcond⟩ := hr
    rw [Bool.and_eq_true, Bool.and_eq_true] at hcond
    obtain ⟨⟨hcorp, hex⟩, hany⟩ := hcond
    rw [Bool.not_eq_true', List.any_eq_false] at hany
    refine ⟨⟨r, hmem, by simpa using hcorp, by simpa using hex, rfl⟩, ?_⟩
    intro r2 hr2 hfalse heq
    have h2 := hany r2 hr2
    simp [hfalse, heq] at h2
  · rintro ⟨⟨r, hmem, hcorp, hex, hsid⟩, hno⟩
    refine ⟨r, ?_, hsid⟩
    rw [List.mem_filter]
    refine ⟨hmem, ?_⟩
    rw [Bool.and_eq_true, Bool.and_eq_true, Bool.not_eq_true', List.any_eq_false]
    refine ⟨⟨by simpa using hcorp, by simpa using hex⟩, ?_⟩
    intro r2 hr2
    simp only [Bool.and_eq_true, beq_iff_eq, not_and]
    intro hf hs
    exact absurd (hs.trans hsid) (hno r2 hr2 hf)

/-- C4 counterexample: structure 10 of corporation 7 has an old
tombstone (row id 1) followed by a live row (row id 2): its latest row
has exists=true, yet structure_ids excludes it. -/
theorem c4_counterexample :
    latestRowExists c4Table 10 = true ∧ 10 ∉ structureIds c4Table 7 := by
  decide

/-- Helper for C8: appending one binding to the accumulator only
matters when the corporation was not yet bound. -/
theorem lookupCorp_append_single {β : Type} (acc : List (Nat × β))
    (k corp : Nat) (v : β) :
    lookupCorp (acc ++ [(k, v)]) corp
      = (lookupCorp acc corp).or (if k == corp then some v else none) := by
  unfold lookupCorp
  rw [List.find?_append]
  cases h1 : acc.find? (fun p => p.1 == corp) with
  | some p => simp
  | none =>
    by_cases hk : (k == corp) = true
    · simp [List.find?, hk]
    · simp [List.find?, hk]

/-- Helper for C8: once a corporation is bound in the accumulator, the
dict-building fold never rebinds it. -/
theorem credFold_lookup_some :
    ∀ (l : List Cred) (acc : List (Nat × Cred)) (corp : Nat) (c0 : Cred),
      lookupCorp acc corp = some c0 →
      lookupCorp (credFold acc l) corp = some c0 := by
  intro l
  induction l with
  | nil => intro acc corp c0 h; simpa [credFold] using h
  | cons c rest ih =>
    intro acc corp c0 h
    unfold credFold
    by_cases hex : (lookupCorp acc c.corporation_id).isSome
    · rw [if_pos hex]
      exact ih acc corp c0 h
    · rw [if_neg hex]
      refine ih _ corp c0 ?_
      rw [lookupCorp_append_single, h]
      rfl

/-- Helper for C8: for a corporation not yet bound, the fold binds it to
the first row of the ordered list belonging to that corporation. -/
theorem credFold_lookup_none :
    ∀ (l : List Cred) (acc : List (Nat × Cred)) (corp : Nat),
      lookupCorp acc corp = none →
      lookupCorp (credFold acc l) corp
        = (l.filter (fun c => c.corporation_id == corp)).head? := by
  intro l
  induction l with
  | nil => intro acc corp h; simpa [credFold] using h
  | cons c rest ih =>
    intro acc corp h
    unfold credFold
    by_cases hex : (lookupCorp acc c.corporation_id).isSome
    · rw [if_pos hex]
      have hc : (c.corporation_id == corp) = false := by
        by_contra hcc
        have : c.corporation_id = corp := by
          simpa using Bool.not_eq_false _ |>.mp hcc
        rw [this, h] at hex
        simp at hex
      rw [List.filter_cons_of_neg (by simp [hc])]
      exact ih acc corp h
    · rw [if_neg hex]
      by_cases hc : (c.corporation_id == corp) = true
      · have hsome : lookupCorp (acc ++ [(c.corporation_id, c)]) corp = some c := by
          rw [lookupCorp_append_single, h, hc]
          rfl
        rw [credFold_lookup_some rest _ corp c hsome,
          List.filter_cons_of_pos (by simp [hc])]
        rfl
      · have hnone : lookupCorp (acc ++ [(c.corporation_id, c)]) corp = none := by
          rw [lookupCorp_append_single, h]
          simp [hc]
        rw [ih _ corp hnone,
          List.filter_cons_of_neg (by simpa using hc)]

/-- Helper for C8: the head of the filtered run of a sorted list is a
member satisfying the predicate and minimal among all members that
satisfy it. -/
theorem sorted_filter_head_min :
    ∀ (l : List Cred), List.Sorted credLE l → ∀ (p : Cred → Bool) (x : Cred),
      (l.filter p).head? = some x →
      x ∈ l ∧ p x = true ∧ ∀ y ∈ l, p y = true → credLE x y := by
  intro l
  induction l with
  | nil => intro _ p x hx; simp at hx
  | cons a rest ih =>
    intro hs p x hx
    rw [List.sorted_cons] at hs
    obtain ⟨hall, hrest⟩ := hs
    by_cases hpa : p a = true
    · rw [List.filter_cons_of_pos hpa] at hx
      simp only [List.head?_cons, Option.some.injEq] at hx
      subst hx
      refine ⟨List.mem_cons_self _ _, hpa, ?_⟩
      intro y hy hpy
      rcases List.mem_cons.mp hy with rfl | hy2
      · exact Or.inr ⟨rfl, le_refl _⟩
      · exact hall y hy2
    · rw [List.filter_cons_of_neg (by simpa using hpa)] at hx
      obtain ⟨hmem, hpx, hmin⟩ := ih hrest p x hx
      refine ⟨List.mem_cons_of_mem _ hmem, hpx, ?_⟩
      intro y hy hpy
      rcases List.mem_cons.mp hy with rfl | hy2
      · exact absurd hpy hpa
      · exact hmin y hy2 hpy

/-- C8 (amended): the scheduler's credential selection considers exactly
the enabled credentials that carry the station-manager role and whose
access token has not expired (the WHERE clause requires
is_station_manager_role, so a director credential without that role is
never considered); among those, the credential chosen for each
corporation is one of its eligible rows and is minimal in the ORDER BY
preference (director first, then accountant, then earliest token
expiry), and every corporation owning an eligible credential receives a
choice. -/
theorem c8_credential_selection (now : ℚ) (table : List Cred) :
    (∀ (corp : Nat) (c : Cred),
      lookupCorp (availableCreds now table) corp = some c →
      c ∈ table ∧ credEligible now c = true ∧ c.corporation_id = corp ∧
        ∀ c2 ∈ table, credEligible now c2 = true → c2.corporation_id = corp →
          credLE c c2) ∧
    (∀ c2 ∈ table, credEligible now c2 = true →
      (lookupCorp (availableCreds now table) c2.corporation_id).isSome = true) := by
  have hlook : ∀ corp, lookupCorp (availableCreds now table) corp
      = ((List.insertionSort credLE (table.filter (credEligible now))).filter
          (fun c => c.corporation_id == corp)).head? := by
    intro corp
    exact credFold_lookup_none _ [] corp rfl
  have hsort : List.Sorted credLE
      (List.insertionSort credLE (table.filter (credEligible now))) :=
    List.sorted_insertionSort _ _
  have hmem : ∀ c : Cred,
      c ∈ List.insertionSort credLE (table.filter (credEligible now))
        ↔ (c ∈ table ∧ credEligible now c = true) := by
    intro c
    rw [(List.perm_insertionSort credLE _).mem_iff, List.mem_filter]
  constructor
  · intro corp c hc
    rw [hlook corp] at hc
    obtain ⟨hin, hp, hmin⟩ := sorted_filter_head_min _ hsort _ c hc
    obtain ⟨htab, helig⟩ := (hmem c).mp hin
    refine ⟨htab, helig, by simpa using hp, ?_⟩
    intro c2 h2 he2 hcorp2
    exact hmin c2 ((hmem c2).mpr ⟨h2, he2⟩) (by simpa using hcorp2)
  · intro c2 h2 he2
    rw [hlook c2.corporation_id]
    rw [List.head?_isSome]
    exact List.ne_nil_of_mem (List.mem_filter.mpr
      ⟨(hmem c2).mpr ⟨h2, he2⟩, by simp⟩)

/-- C8 witness: of two eligible same-corporation credentials the
director one is chosen, and it is a member of the table, eligible, and
preferred over the plain station-manager credential. -/
theorem c8_witness :
    c8Director ∈ c8Table ∧ credEligible 10 c8Director = true ∧
    c8Director.corporation_id = 7 ∧ credLE c8Director c8Plain := by
  have h := (c8_credential_selection 10 c8Table).1 7 c8Director (by decide)
  exact ⟨h.1, h.2.1, h.2.2.1, h.2.2.2 c8Plain (by decide) (by decide) (by decide)⟩

/-- C8 counterexample: an enabled director credential with an unexpired
token but without the station-manager role is, per the claim, among the
considered credentials, yet the selection returns no credential at all
for its corporation. -/
theorem c8_counterexample :
    c8NoSM.is_enabled = true ∧ c8NoSM.is_director_role = true ∧
    (10 : ℚ) < c8NoSM.access_token_expiry ∧
    availableCreds 10 [c8NoSM] = [] := by
  refine ⟨rfl, rfl, by norm_num [c8NoSM], ?_⟩
  decide

/-- Helper: find? past a head that fails the predicate. -/
theorem find?_cons_false {α : Type} (p : α → Bool) (a : α) (l : List α)
    (h : p a = false) : (a :: l).find? p = l.find? p :=
  List.find?_cons_of_neg l (by simp [h])

/-- Helper: find? stops at a head that satisfies the predicate. -/
theorem find?_cons_true {α : Type} (p : α → Bool) (a : α) (l : List α)
    (h : p a = true) : (a :: l).find? p = some a :=
  List.find?_cons_of_pos l h

/-- Helper: replacing key k in place does not disturb lookups of other
keys. -/
theorem find?_map_replace (k k2 : String) (v : EVal)
    (hkk : (k == k2) = false) :
    ∀ d : EDict,
      (d.map (fun p => if p.1 == k then (k, v) else p)).find?
          (fun p => p.1 == k2)
        = d.find? (fun p => p.1 == k2) := by
  intro d
  induction d with
  | nil => rfl
  | cons p rest ih =>
    rw [List.map_cons]
    by_cases hp : (p.1 == k) = true
    · have hp1 : p.1 = k := by simpa using hp
      have hpk2 : (p.1 == k2) = false := by rw [hp1]; exact hkk
      rw [if_pos hp]
      rw [find?_cons_false (fun q => q.1 == k2) (k, v) _ (by simpa using hkk)]
      rw [find?_cons_false (fun q => q.1 == k2) p _ (by simpa using hpk2)]
      exact ih
    · rw [if_neg hp]
      by_cases hpk2 : (p.1 == k2) = true
      · rw [find?_cons_true (fun q => q.1 == k2) p _ (by simpa using hpk2),
          find?_cons_true (fun q => q.1 == k2) p _ (by simpa using hpk2)]
      · have hpk2f : (p.1 == k2) = false := by simpa using hpk2
        rw [find?_cons_false (fun q => q.1 == k2) p _ (by simpa using hpk2f),
          find?_cons_false (fun q => q.1 == k2) p _ (by simpa using hpk2f)]
        exact ih

/-- Helper: a dict union `d | {k: v}` leaves every other key's lookup
unchanged. -/
theorem edictGet_dictInsert_ne (d : EDict) (k k2 : String) (v : EVal)
    (h : k2 ≠ k) :
    edictGet (dictInsert d k v) k2 = edictGet d k2 := by
  have hkk : (k == k2) = false := by
    simp only [beq_eq_false_iff_ne, ne_eq]
    exact fun hk => h hk.symm
  unfold dictInsert
  by_cases hany : d.any (fun p => p.1 == k) = true
  · rw [if_pos hany]
    unfold edictGet
    rw [find?_map_replace k k2 v hkk]
  · rw [if_neg hany]
    unfold edictGet
    rw [List.find?_append]
    cases h1 : d.find? (fun p => p.1 == k2) with
    | some p => simp
    | none => simp [List.find?, hkk]

/-- Helper: every field of a constructed row takes the value the final
edict assigns to its column. -/
theorem mkRow_fields_eq (cols : List String) (hex : "exists" ∉ cols)
    (E S : EDict) (hE : ∀ k, k ≠ "exists" → edictGet E k = edictGet S k) :
    ∀ p ∈ cols.map (fun k => (k, edictGet E k)), p.2 = edictGet S p.1 := by
  intro p hp
  rw [List.mem_map] at hp
  obtain ⟨k, hk, hfk⟩ := hp
  cases hfk
  have hkne : k ≠ "exists" := fun hkk => hex (hkk ▸ hk)
  exact hE k hkne

/-- Helper: the diff counts zero changes when every prior field already
equals the new edict's value for its key. -/
theorem countChanges_eq_zero (skip : List String) (priorE nowE : EDict)
    (h : ∀ p ∈ priorE, p.2 = edictGet nowE p.1) :
    countChanges skip priorE nowE = 0 := by
  unfold countChanges
  rw [List.length_eq_zero, List.filter_eq_nil_iff]
  intro p hp
  simp [h p hp]

/-- Helper: with nowExists = true the diff either reports no change or
returns the new edict merged with the exists flag. -/
theorem changesFn_true_cases (skip : List String) (pe : Bool)
    (priorE S : EDict) :
    changesFn skip pe true priorE S = []
      ∨ changesFn skip pe true priorE S
          = dictInsert S "exists" (EVal.vBool true) := by
  unfold changesFn
  by_cases h1 : edictLen S > 0 <;>
    by_cases h2 : countChanges skip priorE S > 0 <;>
      simp [h1, h2]

/-- Helper: re-running the diff against a row that was just built from
an edict agreeing with S on every column reports no change. -/
theorem changesFn_after_append (skip cols : List String)
    (hex : "exists" ∉ cols) (S E : EDict)
    (hE : ∀ k, k ≠ "exists" → edictGet E k = edictGet S k) (pe : Bool) :
    changesFn skip pe true (cols.map (fun k => (k, edictGet E k))) S = [] := by
  have hz : countChanges skip (cols.map (fun k => (k, edictGet E k))) S = 0 :=
    countChanges_eq_zero skip _ S (mkRow_fields_eq cols hex E S hE)
  unfold changesFn
  by_cases hS : edictLen S > 0 <;> simp [hS, hz]

/-- Helper: merging the exists flag into a valid edict keeps it valid
(exists is itself an accepted constructor keyword). -/
theorem validKeys_dictInsert_exists (cols : List String) (d : EDict)
    (v : EVal) (h : validKeys cols d = true) :
    validKeys cols (dictInsert d "exists" v) = true := by
  unfold dictInsert
  by_cases hany : d.any (fun p => p.1 == "exists") = true
  · rw [if_pos hany]
    unfold validKeys at h ⊢
    rw [List.all_eq_true] at h ⊢
    intro p hp
    rw [List.mem_map] at hp
    obtain ⟨q, hq, hfq⟩ := hp
    by_cases hqk : (q.1 == "exists") = true
    · rw [if_pos hqk] at hfq
      rw [← hfq]
      simp
    · rw [if_neg hqk] at hfq
      rw [← hfq]
      exact h q hq
  · rw [if_neg hany]
    unfold validKeys at h ⊢
    rw [List.all_append, h]
    simp

/-- Helper: a dict union `d | {k: v}` is never empty. -/
theorem dictInsert_len_pos (d : EDict) (k : String) (v : EVal) :
    0 < edictLen (dictInsert d k v) := by
  unfold dictInsert
  by_cases hany : d.any (fun p => p.1 == k) = true
  · rw [if_pos hany]
    obtain ⟨x, hx, -⟩ := List.any_eq_true.mp hany
    simpa [edictLen] using List.length_pos.mpr (List.ne_nil_of_mem hx)
  · rw [if_neg hany]
    simp [edictLen]

/-- Helper: one set() call appends at most one row. -/
theorem setHist_length_le (skip cols : List String) (hist : List HistRow)
    (nowE : EDict) (nowExists forceSet : Bool) :
    (setHist skip cols hist nowE nowExists forceSet).1.length
      ≤ hist.length + 1 := by
  cases hist with
  | nil =>
    unfold setHist appendRow
    dsimp only
    split_ifs <;> simp
  | cons prior t =>
    unfold setHist appendRow
    dsimp only
    split_ifs <;> simp

/-- Helper for C2: the second of two identical set() calls with
nowExists = true never appends, whatever the starting history. -/
theorem setHist_twice (skip cols : List String) (hist : List HistRow)
    (S : EDict) (hex : "exists" ∉ cols) (hvk : validKeys cols S = true) :
    setHist skip cols (setHist skip cols hist S true false).1 S true false
      = ((setHist skip cols hist S true false).1, false) := by
  have hins1 : ∀ k, k ≠ "exists" →
      edictGet (dictInsert S "exists" (EVal.vBool true)) k = edictGet S k :=
    fun k hk => edictGet_dictInsert_ne S "exists" k _ hk
  have hins2 : ∀ k, k ≠ "exists" →
      edictGet (dictInsert (dictInsert S "exists" (EVal.vBool true))
        "exists" (EVal.vBool true)) k = edictGet S k :=
    fun k hk =>
      (edictGet_dictInsert_ne _ "exists" k _ hk).trans (hins1 k hk)
  have hv1 : validKeys cols (dictInsert S "exists" (EVal.vBool true)) = true :=
    validKeys_dictInsert_exists cols S _ hvk
  have hv2 : validKeys cols (dictInsert (dictInsert S "exists" (EVal.vBool true))
      "exists" (EVal.vBool true)) = true :=
    validKeys_dictInsert_exists cols _ _ hv1
  cases hist with
  | nil =>
    by_cases hS : edictLen S > 0
    · have h1 : setHist skip cols [] S true false
          = ([mkRow cols (dictInsert S "exists" (EVal.vBool true)) true], true) := by
        simp [setHist, hS, appendRow, hv1]
      rw [h1]
      have hzero := changesFn_after_append skip cols hex S
        (dictInsert S "exists" (EVal.vBool true)) hins1 true
      simp [setHist, mkRow, hzero, edictLen]
    · have h1 : setHist skip cols [] S true false = ([], false) := by
        simp [setHist, hS]
      rw [h1]
      exact h1
  | cons prior t =>
    rcases changesFn_true_cases skip prior.rowExists prior.fields S with hc | hc
    · have h1 : setHist skip cols (prior :: t) S true false
          = (prior :: t, false) := by
        simp [setHist, hc, edictLen]
      rw [h1]
      exact h1
    · have hlen : 0 < edictLen (dictInsert S "exists" (EVal.vBool true)) :=
        dictInsert_len_pos _ _ _
      have h1 : setHist skip cols (prior :: t) S true false
          = (mkRow cols (dictInsert (dictInsert S "exists" (EVal.vBool true))
              "exists" (EVal.vBool true)) true :: prior :: t, true) := by
        simp [setHist, hc, hlen, appendRow, hv2]
      rw [h1]
      have hzero := changesFn_after_append skip cols hex S
        (dictInsert (dictInsert S "exists" (EVal.vBool true)) "exists"
          (EVal.vBool true)) hins2 true
      simp [setHist, mkRow, hzero, edictLen]

/-- C2 (amended): feeding the same non-empty snapshot S twice to
AppStructureState.set with nowExists = true appends at most one history
row in total: the first call appends at most one row, and the second
call finds no non-skipped field of the then-latest row differing from S
and appends nothing, whatever the starting history — when the starting
history's latest row already equals S even the first call appends
nothing, so "exactly one" holds only from states whose latest row
differs or is absent. -/
theorem c2_set_idempotent (hist : List HistRow) (S : EDict)
    (hvk : validKeys structureColumns S = true) :
    structureSet (structureSet hist S true).1 S true
      = ((structureSet hist S true).1, false) ∧
    (structureSet hist S true).1.length ≤ hist.length + 1 := by
  constructor
  · exact setHist_twice ["character_id"] structureColumns hist S (by decide) hvk
  · exact setHist_length_le ["character_id"] structureColumns hist S true false

/-- C2 witness: feeding the snapshot c2S twice into an empty structure
history appends one row on the first call and none on the second. -/
theorem c2_witness :
    structureSet (structureSet [] c2S true).1 c2S true
      = ((structureSet [] c2S true).1, false) ∧
    (structureSet [] c2S true).1.length ≤ List.length ([] : List HistRow) + 1 := by
  exact c2_set_idempotent [] c2S (by decide)

/-- C2 counterexample: starting from a history whose latest row already
equals the snapshot (c2H0, itself produced by one set() call), two
further identical set() calls append zero rows in total, not the
claimed exactly one. -/
theorem c2_counterexample :
    (structureSet (structureSet c2H0 c2S true).1 c2S true).1.length
      = c2H0.length ∧ c2H0.length = 1 := by
  decide

/-- C9 (amended): the observers fetch writes with force_set=True, so a
history row is appended for every processed observer snapshot with
valid columns regardless of whether any field changed (the diff, which
skips no keys, only influences which edict is persisted); re-feeding an
unchanged snapshot therefore grows the table; only the disappearance
tombstone (set with nowExists = false, no force) follows the
write-only-if-changed discipline, appending exactly when the latest row
has exists = true. -/
theorem c9_observer_force_append :
    (∀ (hist : List HistRow) (S : EDict),
      validKeys observerColumns S = true →
      (runObserversStep hist S).2 = true ∧
      (runObserversStep hist S).1.length = hist.length + 1) ∧
    (∀ hist : List HistRow,
      (∀ row ∈ hist, validKeys observerColumns row.fields = true) →
      (runObserversRemove hist).1.length
        = hist.length
          + (if (hist.head?).elim false (fun r => r.rowExists) then 1 else 0)) := by
  constructor
  · intro hist S hvk
    have hv1 : validKeys observerColumns
        (dictInsert S "exists" (EVal.vBool true)) = true :=
      validKeys_dictInsert_exists _ S _ hvk
    cases hist with
    | nil =>
      have h1 : runObserversStep [] S
          = ([mkRow observerColumns (dictInsert S "exists" (EVal.vBool true))
              true], true) := by
        simp [runObserversStep, observerSet, setHist, appendRow, hv1]
      rw [h1]
      exact ⟨rfl, rfl⟩
    | cons prior t =>
      rcases changesFn_true_cases [] prior.rowExists prior.fields S with hc | hc
      · have h1 : runObserversStep (prior :: t) S
            = (mkRow observerColumns (dictInsert S "exists" (EVal.vBool true))
                true :: prior :: t, true) := by
          simp [runObserversStep, observerSet, setHist, hc, appendRow, hv1,
            edictLen]
        rw [h1]
        exact ⟨rfl, by simp⟩
      · have hv2 : validKeys observerColumns
            (dictInsert (dictInsert S "exists" (EVal.vBool true)) "exists"
              (EVal.vBool true)) = true :=
          validKeys_dictInsert_exists _ _ _ hv1
        have hlen : 0 < edictLen (dictInsert S "exists" (EVal.vBool true)) :=
          dictInsert_len_pos _ _ _
        have h1 : runObserversStep (prior :: t) S
            = (mkRow observerColumns
                (dictInsert (dictInsert S "exists" (EVal.vBool true)) "exists"
                  (EVal.vBool true)) true :: prior :: t, true) := by
          simp [runObserversStep, observerSet, setHist, hc, hlen, appendRow, hv2]
        rw [h1]
        exact ⟨rfl, by simp⟩
  · intro hist hw
    cases hist with
    | nil => simp [runObserversRemove, observerSet, setHist, edictLen]
    | cons prior t =>
      by_cases hpe : prior.rowExists = true
      · have hvp : validKeys observerColumns prior.fields = true :=
          hw prior (List.mem_cons_self _ _)
        have hv1 : validKeys observerColumns
            (dictInsert prior.fields "exists" (EVal.vBool false)) = true :=
          validKeys_dictInsert_exists _ _ _ hvp
        have hv2 : validKeys observerColumns
            (dictInsert (dictInsert prior.fields "exists" (EVal.vBool false))
              "exists" (EVal.vBool false)) = true :=
          validKeys_dictInsert_exists _ _ _ hv1
        have hc : changesFn [] true false prior.fields []
            = dictInsert prior.fields "exists" (EVal.vBool false) := by
          simp [changesFn]
        have hlen : 0 < edictLen (dictInsert prior.fields "exists"
            (EVal.vBool false)) :=
          dictInsert_len_pos _ _ _
        simp [runObserversRemove, observerSet, setHist, hc, hlen, appendRow,
          hv2, hpe]
      · have hpe2 : prior.rowExists = false := by simpa using hpe
        have hc : changesFn [] false false prior.fields [] = [] := by
          simp [changesFn]
        simp [runObserversRemove, observerSet, setHist, hc, hpe2, edictLen]

/-- C9 witness: on the observer history c9H1 (one row equal to the
snapshot c9S), re-feeding c9S reports a write and appends a row, and
the disappearance tombstone also appends exactly one row because the
latest row has exists = true. -/
theorem c9_witness :
    ((runObserversStep c9H1 c9S).2 = true ∧
      (runObserversStep c9H1 c9S).1.length = c9H1.length + 1) ∧
    (runObserversRemove c9H1).1.length
      = c9H1.length
        + (if (c9H1.head?).elim false (fun r => r.rowExists) then 1 else 0) :=
  ⟨c9_observer_force_append.1 c9H1 c9S (by decide),
   c9_observer_force_append.2 c9H1 (by decide)⟩

/-- C9 counterexample: re-feeding the identical observer snapshot c9S
to the history that already ends in exactly that snapshot appends
another row (2 rows total), where the claim says nothing would be
appended. -/
theorem c9_counterexample :
    (runObserversStep c9H1 c9S).1.length = c9H1.length + 1 ∧
    c9H1.length = 1 := by
  decide

end EsiSso
